import Mathlib

/-!
Shallow embedding of the `mdbsql` crate (query/cursor protocol in
`src/mdbsql.rs` and the table export engine in `src/ffi.rs`), with
theorems checking the natural-language specification against it.

Modelling conventions:
* C strings exposed by the engine are modelled as Lean `String`s.
* A raw `*const c_char` pointer into the engine's bound-value buffer
  array is modelled as a `Nat` index into a `List String` of buffer
  contents; dereferencing an out-of-range index is undefined behaviour
  in the source and is modelled as `GetResult.panic` / `Option.none`.
* The external engine calls (`mdb_sql_run_query`, `mdb_print_col`,
  `quote_schema_name`, `mdb_normalise_and_replace`, `mdb_ole_read_full`)
  are opaque collaborators and enter the model as function parameters.
-/

namespace Mdbsql

/-- Error taxonomy from `src/error.rs` (`enum Error`). Path payloads and
third-party error payloads are modelled as strings. -/
inductive Error where
  | invalidPath (p : String)
  | invalidMdbFile (p : String)
  | mdbSqlError (msg : String)
  | nulError
  | utf8Error
  | mutexPoisonError (msg : String)
  | invalidRowIndex (idx : Nat)
  | fromSqlError (msg : String)
deriving DecidableEq, Repr

/-- The engine-side query-session state reachable through the `MdbSQL`
handle in `src/mdbsql.rs`: the `columns` array (names as stored by the
engine), `num_columns`, the contents of the `bound_values` buffers, the
rows the engine has not yet fetched, and the `error_msg` slot (the empty
string models a slot whose first byte is 0). -/
structure MdbSQLState where
  columnNames : List String
  numColumns : Nat
  boundValues : List String
  pendingRows : List (List String)
  errorMsg : String
deriving DecidableEq, Repr

/-- The engine state produced by `mdb_sql_reset`: query state, column
list, bound values and the error slot are all cleared. -/
def resetState : MdbSQLState :=
  { columnNames := [], numColumns := 0, boundValues := [], pendingRows := [], errorMsg := "" }

/-- `mdb_sql_reset(db)`. -/
def mdb_sql_reset (_ : MdbSQLState) : MdbSQLState := resetState

/-- `mdb_sql_fetch_row(db, cur_table)`: on success (return value 1) the
engine writes the next row's textual values into the bound-value
buffers and consumes it from the pending rows. -/
def mdb_sql_fetch_row (s : MdbSQLState) : Bool × MdbSQLState :=
  match s.pendingRows with
  | [] => (false, s)
  | row :: rest => (true, { s with boundValues := row, pendingRows := rest })

/-- Whitespace trimming as performed by Rust's `str::trim` (at model
granularity: the ASCII whitespace characters recognised by
`Char.isWhitespace`), written over the character list so that it
evaluates by kernel reduction. -/
def trimStr (s : String) : String :=
  String.mk (((s.data.dropWhile Char.isWhitespace).reverse.dropWhile Char.isWhitespace).reverse)

/-- `cstr_to_string` (src/mdbsql.rs:180-183): read the C string and trim
surrounding whitespace. -/
def cstr_to_string (s : String) : String := trimStr s

/-- `Rows<'a>` (src/mdbsql.rs:72-75): the cursor, holding the
`MutexGuard<'a, Mdb>` (modelled by owning the engine state while the
lock is held) and the eagerly copied column names. -/
structure Rows where
  mdb_guard : MdbSQLState
  names : List String
deriving DecidableEq, Repr

/-- `impl From<MutexGuard<'a, Mdb>> for Rows<'a>` (src/mdbsql.rs:83-103):
copy each engine column name out through `cstr_to_string`. -/
def Rows.fromGuard (s : MdbSQLState) : Rows :=
  { mdb_guard := s, names := s.columnNames.map cstr_to_string }

/-- `Row` (src/mdbsql.rs:126-129): the values field holds the raw
`*const c_char` pointers read out of `bound_values->pdata`, modelled as
buffer indices. -/
structure Row where
  values : List Nat
deriving DecidableEq, Repr

/-- `Iterator::next` for `Rows` (src/mdbsql.rs:105-123): one engine fetch
per advance; on success the yielded `Row` holds the pointers to the
`num_columns` bound-value buffers; on failure the engine state is reset
and the sequence ends. -/
def Rows.next (r : Rows) : Option Row × Rows :=
  match mdb_sql_fetch_row r.mdb_guard with
  | (true, s) => (some { values := List.range s.numColumns }, { r with mdb_guard := s })
  | (false, s) => (none, { r with mdb_guard := mdb_sql_reset s })

/-- Result of `Row::get`: `Ok`, `Err`, or a Rust panic / undefined
behaviour (out-of-bounds `Vec` index, dangling pointer dereference). -/
inductive GetResult (T : Type) where
  | ok (v : T)
  | err (e : Error)
  | panic
deriving DecidableEq, Repr

/-- `FromSql::column_result` for `T: DeserializeOwned`
(src/mdbsql.rs:147-156): dereference the pointer (`CStr::from_ptr`),
trim surrounding whitespace, and decode with `serde_plain::from_str`,
abstracted as the parameter `dec`; a decode failure becomes
`FromSqlError`. Dereferencing a pointer outside the buffer table is
undefined behaviour, modelled as `panic`. -/
def column_result {T : Type} (mem : List String) (dec : String → Except String T)
    (ptr : Nat) : GetResult T :=
  match mem[ptr]? with
  | none => GetResult.panic
  | some s =>
    match dec (trimStr s) with
    | Except.ok v => GetResult.ok v
    | Except.error e => GetResult.err (Error.fromSqlError e)

/-- `Row::get` (src/mdbsql.rs:131-140), faithfully including the
`idx <= self.values.len()` bound check: when the check passes but `idx`
equals the length, `self.values[idx]` is an out-of-bounds `Vec` index,
which panics. -/
def Row.get {T : Type} (mem : List String) (dec : String → Except String T)
    (r : Row) (idx : Nat) : GetResult T :=
  if idx ≤ r.values.length then
    match r.values[idx]? with
    | some p => column_result mem dec p
    | none => GetResult.panic
  else
    GetResult.err (Error.invalidRowIndex idx)

/-- `run_query` (src/mdbsql.rs:158-166): `CString::new(query)?` fails
with `NulError` when the query contains an embedded nul byte; otherwise
the query is submitted to the engine, whose behaviour is the opaque
parameter `exec`. -/
def run_query (exec : MdbSQLState → String → MdbSQLState)
    (s : MdbSQLState) (query : String) : Except Error MdbSQLState :=
  if query.data.contains (Char.ofNat 0) then Except.error Error.nulError
  else Except.ok (exec s query)

/-- Outcome of `Connection::prepare`: the returned result, the engine
state left behind for the connection, and whether the mutex lock is
still held when `prepare` returns (it is exactly when a live cursor,
which owns the guard, was returned). -/
structure PrepareOutcome where
  result : Except Error Rows
  engine : MdbSQLState
  lockHeld : Bool

/-- `Connection::prepare` (src/mdbsql.rs:62-68) composed with
`check_error` (src/mdbsql.rs:168-178): after running the query, inspect
the engine's error slot; if non-empty, read the message through
`cstr_to_string`, reset the engine state (`mdb_sql_reset`) and return
`Err(MdbSqlError(..))` with the guard dropped; if empty, return a live
`Rows` cursor still holding the guard. -/
def Connection.prepare (exec : MdbSQLState → String → MdbSQLState)
    (s : MdbSQLState) (query : String) : PrepareOutcome :=
  match run_query exec s query with
  | Except.error e => { result := Except.error e, engine := s, lockHeld := false }
  | Except.ok s1 =>
    if s1.errorMsg = "" then
      { result := Except.ok (Rows.fromGuard s1), engine := s1, lockHeld := true }
    else
      { result := Except.error (Error.mdbSqlError (cstr_to_string s1.errorMsg)),
        engine := mdb_sql_reset s1,
        lockHeld := false }

/-- Advance the cursor `k` times, discarding the yielded rows. -/
def Rows.advanceN : Rows → Nat → Rows
  | r, 0 => r
  | r, Nat.succ k => Rows.advanceN (r.next).2 k

/-- Iterate the cursor with the given fuel, recording for every yielded
`Row` the textual values observed by dereferencing its pointers at the
moment it is yielded (before the next fetch), and returning the final
cursor. -/
def Rows.drainAux : Nat → Rows → List (List String) × Rows
  | 0, r => ([], r)
  | Nat.succ fuel, r =>
    match Rows.next r with
    | (some row, r1) =>
      let obs := row.values.map (fun p => r1.mdb_guard.boundValues.getD p "")
      let rest := Rows.drainAux fuel r1
      (obs :: rest.1, rest.2)
    | (none, r1) => ([], r1)

/-- Iterate the cursor to exhaustion (enough fuel to fetch every pending
row and then observe the failing fetch that resets the engine). -/
def Rows.drain (r : Rows) : List (List String) × Rows :=
  Rows.drainAux (r.mdb_guard.pendingRows.length + 1) r

/-! Export engine, from `Mdb::export` in `src/ffi.rs`. -/

/-- `MDB_OLE`, the large-binary column type constant from the mdbtools
headers exposed through the generated `libmdb-sys` bindings (0x0B). -/
def MDB_OLE : Int := 11

/-- `EXPORT_BIND_SIZE` (src/ffi.rs:24). -/
def EXPORT_BIND_SIZE : Nat := 200000

/-- A column of an `MdbTableDef` (`MdbColumn`): its name and declared
`col_type`. -/
structure MdbColumn where
  name : String
  col_type : Int
deriving DecidableEq, Repr

/-- An `MdbTableDef` after `mdb_read_columns` and `mdb_rewind_table`:
name, columns, and the data rows `mdb_fetch_row` will produce, each row
being the textual cell values the engine writes into the bound buffers. -/
structure MdbTableDef where
  name : String
  columns : List MdbColumn
  rows : List (List String)
deriving DecidableEq, Repr

/-- One `mdb_bind_column` registration made during the bind phase of
`Mdb::export`: the 1-based column index and the capacity of the value
buffer allocated for it (a matching length cell is registered with it). -/
structure BindReg where
  colIndex : Nat
  capacity : Nat
deriving DecidableEq, Repr

/-- Bind phase of `Mdb::export` (src/ffi.rs:252-266): `for i in
1..=(*table).num_cols` allocate a `EXPORT_BIND_SIZE`-byte buffer plus a
length cell and register them with `mdb_bind_column(table, i, ..)`. -/
def exportBindPhase (table : MdbTableDef) : List BindReg :=
  (List.range' 1 table.columns.length).map
    (fun i => { colIndex := i, capacity := EXPORT_BIND_SIZE })

/-- Modelled from the spec: the bind phase the specification describes,
registering a fixed buffer and length cell for exactly the columns that
are not large-binary (OLE) columns; OLE columns are never pre-bound.
Used only to compare the specified bind phase with `exportBindPhase`. -/
def specBindPhase (table : MdbTableDef) : List BindReg :=
  ((List.range' 1 table.columns.length).filter
      (fun i => (table.columns.getD (i - 1) { name := "", col_type := 0 }).col_type != MDB_OLE)).map
    (fun i => { colIndex := i, capacity := EXPORT_BIND_SIZE })

/-- A raw length pointer (`*mut i32`): null, or pointing at a length
cell holding `n`. In the OLE branch of the row phase the source passes
`ptr::null_mut()`. -/
inductive LenPtr where
  | null
  | cell (n : Nat)
deriving DecidableEq, Repr

/-- Dereference a length pointer; dereferencing null is undefined
behaviour, modelled as `none`. -/
def LenPtr.deref : LenPtr → Option Nat
  | LenPtr.null => none
  | LenPtr.cell n => some n

/-- Value selection and literal formatting for one column in the row
phase of `Mdb::export` (src/ffi.rs:302-330). For an OLE column the full
value is read from the engine with `mdb_ole_read_full` (parameter
`ole_full`) while the length pointer passed to it — and then
dereferenced as `*length` at the `mdb_print_col` call — is
`ptr::null_mut()`; for any other column the value and length come from
the column's pre-bound buffer. `print_col` abstracts `mdb_print_col`
(value, length, declared type → formatted destination-dialect
literal). -/
def colLiteral (print_col : String → Nat → Int → String) (ole_full : String)
    (c : MdbColumn) (boundVal : String) (boundLen : Nat) : Option String :=
  let vl : String × LenPtr :=
    if c.col_type = MDB_OLE then (ole_full, LenPtr.null)
    else (boundVal, LenPtr.cell boundLen)
  (LenPtr.deref vl.2).map (fun l => print_col vl.1 l c.col_type)

/-- One iteration of the `while mdb_fetch_row(table) == 1` loop of
`Mdb::export` (src/ffi.rs:283-332), as the text it appends for one
fetched row: `INSERT INTO `, the table name quoted by the backend's
`quote_schema_name` and normalised, ` (`, the normalised column names
joined by `, `, `) VALUES (`, the per-column literals joined by `,`,
and `);`. After a fetch the bound buffer of column `i` holds cell `i`
of the row and its length cell holds that value's length. `none` models
the crash of the null length dereference on an OLE column. -/
def exportRowStmt (quote_schema_name normalize : String → String)
    (print_col : String → Nat → Int → String) (ole_read : MdbColumn → String)
    (table : MdbTableDef) (row : List String) : Option String :=
  ((table.columns.zip row).mapM
      (fun p => colLiteral print_col (ole_read p.1) p.1 p.2 p.2.length)).map
    (fun vals =>
      "INSERT INTO " ++ normalize (quote_schema_name table.name) ++ " (" ++
        String.intercalate ", " (table.columns.map (fun c => normalize c.name)) ++
        ") VALUES (" ++ String.intercalate "," vals ++ ");")

/-- The row phase of `Mdb::export` (src/ffi.rs:283-341): one statement
per fetched row, concatenated in fetch order into the returned bulk-DML
text. `ole_read` abstracts `mdb_ole_read_full` for a column in a given
row. -/
def Mdb.export (quote_schema_name normalize : String → String)
    (print_col : String → Nat → Int → String)
    (ole_read : MdbColumn → List String → String)
    (table : MdbTableDef) : Option String :=
  (table.rows.mapM
      (fun row => exportRowStmt quote_schema_name normalize print_col
        (fun c => ole_read c row) table row)).map
    String.join

/-! Concrete instantiations used by the theorems below. -/

/-- A concrete `serde_plain` decoder for `Nat`-valued targets: digits
only, after the trim done by `column_result`. -/
def natDecode (s : String) : Except String Nat :=
  if s.data ≠ [] ∧ s.data.all Char.isDigit then
    Except.ok (s.data.foldl (fun n c => n * 10 + (c.toNat - 48)) 0)
  else Except.error "invalid digit"

/-- A concrete `serde_plain` decoder for `String` targets (the identity
on the trimmed text). -/
def strDecode (s : String) : Except String String := Except.ok s

/-- A concrete engine state: one column `A`, two pending rows. -/
def twoRowState : MdbSQLState :=
  { columnNames := ["A"], numColumns := 1, boundValues := ["?"],
    pendingRows := [["a"], ["b"]], errorMsg := "" }

/-- A concrete table whose single column is a large-binary (OLE)
column. -/
def oleTable : MdbTableDef :=
  { name := "t", columns := [{ name := "Photo", col_type := 11 }], rows := [["blob"]] }

/-- A concrete table with two non-OLE columns and two rows. -/
def plainTable : MdbTableDef :=
  { name := "T",
    columns := [{ name := "A", col_type := 10 }, { name := "B", col_type := 3 }],
    rows := [["Foo", "1"], ["Bar", "2"]] }

/-- An engine whose query execution always leaves an error message with
surrounding whitespace in the error slot. -/
def execBoom : MdbSQLState → String → MdbSQLState :=
  fun s _ => { s with errorMsg := " boom " }

/-- An engine whose query execution succeeds, exposing one column `ID`
and one pending row. -/
def execOkay : MdbSQLState → String → MdbSQLState :=
  fun _ _ =>
    { columnNames := ["ID"], numColumns := 1, boundValues := ["?"],
      pendingRows := [["1"]], errorMsg := "" }

/-- C1. The bound check of `Row::get` is `idx <= self.values.len()`
rather than `idx < self.values.len()`: for a row with one value, access
at index 1 passes the check and panics on the out-of-bounds `Vec` index
instead of returning `Err(InvalidRowIndex(1))`; indices strictly above
the length do return `InvalidRowIndex`, a valid index decodes the
trimmed cell text, and a valid index whose text does not decode returns
`FromSqlError`. -/
theorem c1_get_boundary_panics :
    Row.get ["1"] natDecode { values := [0] } 1 = GetResult.panic ∧
    Row.get ["1"] natDecode { values := [0] } 2 =
      GetResult.err (Error.invalidRowIndex 2) ∧
    Row.get [" 1 "] natDecode { values := [0] } 0 = GetResult.ok 1 ∧
    Row.get ["Foo"] natDecode { values := [0] } 0 =
      GetResult.err (Error.fromSqlError "invalid digit") := by
  decide

/-- C2 counterexample. The bind phase of `Mdb::export` registers a
fixed buffer and length cell for every column in `1..=num_cols`,
including OLE columns; on a table whose single column is an OLE column
it therefore differs from the spec-modelled bind phase, which would
bind no column at all. -/
theorem c2_bind_phase_binds_ole_column :
    exportBindPhase oleTable ≠ specBindPhase oleTable := by
  decide

/-- C2 amended. In the bind phase of `Mdb::export`, every column of the
table — whether or not it is a large-binary (OLE) column — gets exactly
one registration, in column order: the `j`-th registration binds column
`j + 1` with a fixed `EXPORT_BIND_SIZE`-byte buffer and a length
cell. -/
theorem c2_bind_phase_every_column (table : MdbTableDef) :
    (exportBindPhase table).length = table.columns.length ∧
    ∀ j, j < table.columns.length →
      (exportBindPhase table)[j]? =
        some { colIndex := j + 1, capacity := EXPORT_BIND_SIZE } := by
  constructor
  · simp [exportBindPhase]
  · intro j hj
    simp [exportBindPhase, List.getElem?_map, List.getElem?_range', hj]
    omega

/-- C2 witness: the amended bind-phase theorem evaluated on the
concrete one-OLE-column table. -/
theorem c2_bind_phase_every_column_witness :
    (exportBindPhase oleTable).length = oleTable.columns.length ∧
    (exportBindPhase oleTable)[0]? =
      some { colIndex := 1, capacity := EXPORT_BIND_SIZE } :=
  ⟨(c2_bind_phase_every_column oleTable).1,
    (c2_bind_phase_every_column oleTable).2 0 (by decide)⟩

/-- C3. In the row phase, a non-OLE column's literal is formatted from
its pre-bound buffer value and length, but for an OLE column the length
pointer handed to `mdb_ole_read_full` and then dereferenced at the
`mdb_print_col` call is null: the dereference is undefined behaviour
(`none`), so exporting any row containing an OLE column crashes instead
of emitting the value, contradicting the claim that the value and
length are read from the engine and formatted. -/
theorem c3_ole_length_pointer_is_null :
    colLiteral (fun v _ _ => v) "full" { name := "A", col_type := 10 } "Foo" 3 =
      some "Foo" ∧
    colLiteral (fun v _ _ => v) "full" { name := "Photo", col_type := 11 } "bound" 5 =
      none ∧
    Mdb.export (fun s => s) (fun s => s) (fun v _ _ => v) (fun _ _ => "full") oleTable =
      none := by
  decide

/-- C4. A yielded `Row` stores the raw bound-buffer pointers, not a
copy of the texts: with two pending rows `["a"]` and `["b"]`, the `Row`
yielded by the first advance reads `"a"` before the cursor moves on,
but reading the very same `Row` after the second advance yields `"b"`
— the engine reused the buffer its pointer targets. -/
theorem c4_row_aliases_engine_buffer :
    (((Rows.fromGuard twoRowState).next).1.map
        (fun row =>
          Row.get ((Rows.fromGuard twoRowState).next).2.mdb_guard.boundValues
            strDecode row 0)) = some (GetResult.ok "a") ∧
    (((Rows.fromGuard twoRowState).next).1.map
        (fun row =>
          Row.get
            ((((Rows.fromGuard twoRowState).next).2.next).2.mdb_guard.boundValues)
            strDecode row 0)) = some (GetResult.ok "b") := by
  decide

/-- C5 counterexample. `check_error` reads the error slot through
`cstr_to_string`, which trims surrounding whitespace, so when the
engine leaves `" boom "` in the slot the returned error carries
`"boom"`, not the slot's message. -/
theorem c5_error_message_not_verbatim :
    (execBoom resetState "select").errorMsg = " boom " ∧
    (Connection.prepare execBoom resetState "select").result =
      Except.error (Error.mdbSqlError "boom") ∧
    Error.mdbSqlError "boom" ≠ Error.mdbSqlError " boom " :=
  ⟨rfl, rfl, by decide⟩

/-- C5 amended. For every prepare call whose post-execution engine
error slot is non-empty, `prepare` resets the engine-side state before
returning, returns `Err(MdbSqlError(message))` carrying the slot's
message with surrounding whitespace trimmed, releases the lock, and
leaves the `Connection` usable: a subsequent query whose execution
reports no error yields a live cursor. -/
theorem c5_prepare_error_resets (exec exec2 : MdbSQLState → String → MdbSQLState)
    (s : MdbSQLState) (query q2 : String)
    (hq : Char.ofNat 0 ∉ query.data)
    (herr : (exec s query).errorMsg ≠ "")
    (hq2 : Char.ofNat 0 ∉ q2.data)
    (hok2 : (exec2 resetState q2).errorMsg = "") :
    (Connection.prepare exec s query).result =
      Except.error (Error.mdbSqlError (trimStr (exec s query).errorMsg)) ∧
    (Connection.prepare exec s query).engine = resetState ∧
    (Connection.prepare exec s query).lockHeld = false ∧
    (Connection.prepare exec2 (Connection.prepare exec s query).engine q2).result =
      Except.ok (Rows.fromGuard (exec2 resetState q2)) := by
  simp [Connection.prepare, run_query, hq, herr, hq2, hok2, cstr_to_string, mdb_sql_reset]

/-- C5 witness: the amended prepare-error theorem evaluated on the
concrete always-erroring engine followed by the concrete succeeding
one. -/
theorem c5_prepare_error_resets_witness :
    (Connection.prepare execBoom resetState "select").result =
      Except.error (Error.mdbSqlError (trimStr (execBoom resetState "select").errorMsg)) ∧
    (Connection.prepare execBoom resetState "select").engine = resetState ∧
    (Connection.prepare execBoom resetState "select").lockHeld = false ∧
    (Connection.prepare execOkay (Connection.prepare execBoom resetState "select").engine
        "select").result =
      Except.ok (Rows.fromGuard (execOkay resetState "select")) :=
  c5_prepare_error_resets execBoom execOkay resetState "select" "select"
    (by decide) (by decide) (by decide) rfl

/-- Dereferencing every buffer index below a list's length reads the
list back. -/
theorem range_map_getD (l : List String) :
    (List.range l.length).map (fun p => l.getD p "") = l := by
  induction l with
  | nil => rfl
  | cons a t ih =>
    rw [List.length_cons, List.range_succ_eq_map, List.map_cons, List.map_map]
    have hcomp : ((fun p => (a :: t).getD p "") ∘ Nat.succ) = fun p => t.getD p "" := by
      funext p
      rfl
    simp only [List.getD_cons_zero, hcomp, ih]

/-- Draining a cursor whose pending rows all match the engine's column
count observes exactly those rows and ends on the reset state. -/
theorem drainAux_spec (rows : List (List String)) (r : Rows)
    (hr : r.mdb_guard.pendingRows = rows)
    (hw : ∀ row ∈ rows, row.length = r.mdb_guard.numColumns) :
    Rows.drainAux (rows.length + 1) r =
      (rows, { mdb_guard := resetState, names := r.names }) := by
  induction rows generalizing r with
  | nil =>
    simp [Rows.drainAux, Rows.next, mdb_sql_fetch_row, hr, mdb_sql_reset]
  | cons row rest ih =>
    have hrow : row.length = r.mdb_guard.numColumns := hw row (by simp)
    have step : Rows.next r =
        (some { values := List.range r.mdb_guard.numColumns },
          { r with mdb_guard :=
              { r.mdb_guard with boundValues := row, pendingRows := rest } }) := by
      simp [Rows.next, mdb_sql_fetch_row, hr]
    have ihr := ih
      { r with mdb_guard := { r.mdb_guard with boundValues := row, pendingRows := rest } }
      rfl (fun row' h => hw row' (by simp [h]))
    have hobs : (List.range r.mdb_guard.numColumns).map (fun p => row.getD p "") = row := by
      rw [← hrow]
      exact range_map_getD row
    rw [List.length_cons]
    rw [Rows.drainAux, step]
    simp only []
    rw [ihr]
    have hobs2 : List.map (fun p => row[p]?.getD "") (List.range r.mdb_guard.numColumns) = row := by
      simpa [List.getD_eq_getElem?_getD] using hobs
    simp [hobs2]

/-- C6. Iterating a cursor whose engine has `N` pending rows (each with
the engine's column count) yields exactly those `N` rows in fetch
order — each advance is one engine fetch, and the texts observed
through the yielded row at the moment of its yield are that fetched
row's values — after which the cursor resets the engine-side state and
a further advance yields nothing. -/
theorem c6_cursor_yields_all_rows (r : Rows)
    (hw : ∀ row ∈ r.mdb_guard.pendingRows, row.length = r.mdb_guard.numColumns) :
    (Rows.drain r).1 = r.mdb_guard.pendingRows ∧
    (Rows.drain r).2 = { mdb_guard := resetState, names := r.names } ∧
    (((Rows.drain r).2).next).1 = none := by
  have h := drainAux_spec r.mdb_guard.pendingRows r rfl hw
  refine ⟨by rw [Rows.drain, h], by rw [Rows.drain, h], ?_⟩
  rw [Rows.drain, h]
  simp [Rows.next, mdb_sql_fetch_row, resetState, mdb_sql_reset]

/-- C6 witness: draining the concrete two-row cursor yields the two
rows and leaves the reset state. -/
theorem c6_cursor_yields_all_rows_witness :
    (Rows.drain (Rows.fromGuard twoRowState)).1 = [["a"], ["b"]] ∧
    (Rows.drain (Rows.fromGuard twoRowState)).2 =
      { mdb_guard := resetState, names := ["A"] } ∧
    (((Rows.drain (Rows.fromGuard twoRowState)).2).next).1 = none :=
  c6_cursor_yields_all_rows (Rows.fromGuard twoRowState) (by decide)

/-- Mapping a function that succeeds everywhere through the `Option`
monad collects the successes. -/
theorem mapM_option_of_forall {α β : Type} (f : α → Option β) (g : α → β) (l : List α)
    (h : ∀ x ∈ l, f x = some (g x)) : l.mapM f = some (l.map g) := by
  induction l with
  | nil => rfl
  | cons a t ih =>
    rw [List.mapM_cons, h a (by simp), ih (fun x hx => h x (by simp [hx]))]
    rfl

/-- C7. When every column is non-OLE (so the row phase's null-length
crash is not reached), the bulk-DML text returned by `Mdb::export` is
exactly one statement per source row, concatenated in fetch order:
`INSERT INTO `, the quoted-and-normalised table name, ` (`, the
normalised column names joined by `, `, `) VALUES (`, the formatted
values joined by `,`, and `);` — and it is empty for a table with zero
rows. -/
theorem c7_export_statement_shape (q n : String → String)
    (pc : String → Nat → Int → String) (ole : MdbColumn → List String → String)
    (table : MdbTableDef)
    (hcols : ∀ c ∈ table.columns, c.col_type ≠ MDB_OLE) :
    Mdb.export q n pc ole table =
      some (String.join (table.rows.map (fun row =>
        "INSERT INTO " ++ n (q table.name) ++ " (" ++
          String.intercalate ", " (table.columns.map (fun c => n c.name)) ++
          ") VALUES (" ++
          String.intercalate ","
            ((table.columns.zip row).map (fun p => pc p.2 p.2.length p.1.col_type)) ++
          ");"))) := by
  unfold Mdb.export
  have hrows : ∀ row ∈ table.rows,
      exportRowStmt q n pc (fun c => ole c row) table row =
        some ("INSERT INTO " ++ n (q table.name) ++ " (" ++
          String.intercalate ", " (table.columns.map (fun c => n c.name)) ++
          ") VALUES (" ++
          String.intercalate ","
            ((table.columns.zip row).map (fun p => pc p.2 p.2.length p.1.col_type)) ++
          ");") := by
    intro row _
    have hvals : ∀ p ∈ table.columns.zip row,
        colLiteral pc (ole p.1 row) p.1 p.2 p.2.length =
          some (pc p.2 p.2.length p.1.col_type) := by
      intro p hp
      have hc : p.1.col_type ≠ MDB_OLE := hcols p.1 (List.of_mem_zip hp).1
      simp [colLiteral, hc, LenPtr.deref]
    have hm := mapM_option_of_forall
      (fun p => colLiteral pc (ole p.1 row) p.1 p.2 p.2.length)
      (fun p => pc p.2 p.2.length p.1.col_type) (table.columns.zip row) hvals
    unfold exportRowStmt
    rw [hm]
    rfl
  have hm2 := mapM_option_of_forall
    (fun row => exportRowStmt q n pc (fun c => ole c row) table row)
    (fun row =>
      "INSERT INTO " ++ n (q table.name) ++ " (" ++
        String.intercalate ", " (table.columns.map (fun c => n c.name)) ++
        ") VALUES (" ++
        String.intercalate ","
          ((table.columns.zip row).map (fun p => pc p.2 p.2.length p.1.col_type)) ++
        ");") table.rows hrows
  rw [hm2]
  rfl

/-- C7 witness: the export statement shape evaluated on a concrete
two-column, two-row table with concrete quoting, normalisation and
literal-formatting functions. -/
theorem c7_export_statement_shape_witness :
    Mdb.export (fun s => "[" ++ s ++ "]") (fun s => s) (fun v _ _ => v)
        (fun _ _ => "") plainTable =
      some (String.join (plainTable.rows.map (fun row =>
        "INSERT INTO " ++ ("[" ++ plainTable.name ++ "]") ++ " (" ++
          String.intercalate ", " (plainTable.columns.map (fun c => c.name)) ++
          ") VALUES (" ++
          String.intercalate ","
            ((plainTable.columns.zip row).map (fun p => p.2)) ++
          ");"))) :=
  c7_export_statement_shape (fun s => "[" ++ s ++ "]") (fun s => s) (fun v _ _ => v)
    (fun _ _ => "") plainTable (by decide)

/-- Advancing the cursor never touches its eagerly copied name list. -/
theorem next_preserves_names (r : Rows) : ((Rows.next r).2).names = r.names := by
  unfold Rows.next
  rcases h : mdb_sql_fetch_row r.mdb_guard with ⟨b, s⟩
  cases b <;> simp

/-- Any number of advances leaves the name list unchanged. -/
theorem advanceN_names (r : Rows) (k : Nat) : (Rows.advanceN r k).names = r.names := by
  induction k generalizing r with
  | zero => rfl
  | succ k ih => rw [Rows.advanceN, ih, next_preserves_names]

/-- C8. The ordered column-name list is copied out of the engine once
at cursor creation (`From<MutexGuard> for Rows`) and is the same fixed
list after any number of row advances, independent of the engine's
buffer reuse. -/
theorem c8_names_captured_once (s : MdbSQLState) (k : Nat) :
    (Rows.advanceN (Rows.fromGuard s) k).names = s.columnNames.map cstr_to_string := by
  rw [advanceN_names]
  rfl

/-- C10. Each entry of the cursor's name list is the engine-reported
column name with leading and trailing whitespace stripped, a
normalisation applied by `cstr_to_string` during the eager copy-out at
cursor creation. -/
theorem c10_names_are_trimmed (s : MdbSQLState) :
    (Rows.fromGuard s).names = s.columnNames.map trimStr := rfl

end Mdbsql
